import Mathlib

/-!
Shallow embedding of src/Rs_gh_actions.py, the local GitHub-Actions
controller of the rs-client repository.

Modelling conventions:
* Every external invocation is mediated by the process runner `runCmd`
  (or `runCmdLive` for streamed output).  The outcome an external tool
  would produce is supplied by an environment record; `runCmd` returns
  that outcome unchanged when the global dry-run flag is off, and a
  synthetic success without executing anything when it is on, exactly as
  lines 83-99 of the source.  Environment values stand for the already
  stripped (stdout, stderr) pair the source computes.
* Each mediated invocation is also recorded as a `Call` carrying the kind
  of command, which repository it ran in (for git commands issued by the
  coordinator) and whether a real subprocess was spawned.  The call trace
  is the instrumentation the frame/temporal claims are stated over.
* JSON decoding (`json.loads`) is an external library; it is modelled as
  an oracle function `String -> Option (List _)` supplied by the
  environment, `none` standing for a decode error.
* Wall-clock time in the polling loop is idealised as in the spec:
  queries are instantaneous and each loop iteration advances time by the
  2 time-unit sleep, so the `while elapsed < max_wait` loop runs
  `ceil (max_wait / 2)` iterations.
-/

/-- Result of one external invocation: (returncode, stripped stdout,
stripped stderr), as returned by `runCmd` in the source. -/
structure CommandResult where
  exit_code : Int
  stdout : String
  stderr : String
deriving DecidableEq

/-- The synthetic result `(0, "[dry-run]", "")` that `runCmd` reports
without executing anything when the dry-run flag is set (source lines
83-85). -/
def dryRunResult : CommandResult := ⟨0, "[dry-run]", ""⟩

/-- Process runner (source `runCmd`, lines 68-99).  `real` is the result
the external tool would produce.  The second component records whether a
subprocess was actually spawned. -/
def runCmd (dryRun : Bool) (real : CommandResult) : CommandResult × Bool :=
  if dryRun then (dryRunResult, false) else (real, true)

/-- Streaming process runner (source `runCmdLive`, lines 102-115): only
the return code is observed.  Under dry-run it returns 0 without
executing. -/
def runCmdLive (dryRun : Bool) (real : Int) : Int × Bool :=
  if dryRun then (0, false) else (real, true)

/-- The two repositories the coordinator drives, in dependency order. -/
inductive RepoId
  | hbb_common
  | rs_client
deriving DecidableEq

/-- Kind of external command issued through the process runner. -/
inductive CallKind
  | ghVersion
  | ghAuth
  | submoduleUpdate
  | gitStatus
  | gitAdd
  | gitCommit
  | gitFetch
  | gitRevList
  | gitPull
  | gitPush
  | ghTrigger
  | pollList
  | ghRunListWatch
  | ghRunWatchLive
  | ghRunListFail
  | ghRunViewLog
deriving DecidableEq

/-- One recorded invocation of the process runner. -/
structure Call where
  kind : CallKind
  repo : Option RepoId
  executed : Bool
deriving DecidableEq

/-- Tag a recorded call with the repository it was issued in. -/
def tagRepo (r : RepoId) (c : Call) : Call :=
  { c with repo := some r }

/-- Results the git tool would produce for each command the sync engine
may issue in one repository. -/
structure RepoEnv where
  status : CommandResult
  add : CommandResult
  commit : CommandResult
  fetch : CommandResult
  revlist : CommandResult
  pull : CommandResult
  push : CommandResult
deriving DecidableEq

/-- Does the first character list start with the second? -/
def startsWithChars : List Char → List Char → Bool
  | _, [] => true
  | [], _ :: _ => false
  | c :: cs, p :: ps => decide (c = p) && startsWithChars cs ps

/-- Does the second character list occur contiguously in the first? -/
def occursIn : List Char → List Char → Bool
  | [], pat => pat.isEmpty
  | c :: cs, pat => startsWithChars (c :: cs) pat || occursIn cs pat

/-- Python substring containment `pat in s`, for the literal markers the
source matches on. -/
def containsSubstr (s pat : String) : Bool :=
  occursIn s.data pat.data

/-- ASCII lowercase of one character, the part of Python `str.lower`
relevant to the markers the source matches. -/
def lowerChar (c : Char) : Char :=
  if 65 ≤ c.toNat ∧ c.toNat ≤ 90 then Char.ofNat (c.toNat + 32) else c

/-- Python `s.lower()` on the diagnostic text. -/
def lowerStr (s : String) : String :=
  ⟨s.data.map lowerChar⟩

/-- Is the character an ASCII digit? -/
def isAsciiDigit (c : Char) : Bool :=
  decide (48 ≤ c.toNat ∧ c.toNat ≤ 57)

/-- Accumulating base-10 parse of a digit list; `none` on the first
non-digit. -/
def parseNatAux (acc : Nat) : List Char → Option Nat
  | [] => some acc
  | c :: cs => if isAsciiDigit c then parseNatAux (acc * 10 + (c.toNat - 48)) cs else none

/-- Python `s.isdigit()` followed by `int(s)`: `some` of the base-10
value when the string is non-empty and all digits, else `none`. -/
def parseNatDigits (s : String) : Option Nat :=
  match s.data with
  | [] => none
  | c :: cs => parseNatAux 0 (c :: cs)

/-- Source `git_has_changes` (lines 159-162): the status query must exit
zero and print a non-empty (stripped) porcelain listing. -/
def git_has_changes (dryRun : Bool) (env : RepoEnv) : Bool × List Call :=
  let r := runCmd dryRun env.status
  (decide (r.1.exit_code = 0 ∧ r.1.stdout ≠ ""), [⟨CallKind.gitStatus, none, r.2⟩])

/-- Source `git_check_remote_ahead` (lines 165-176): fetch (result
discarded), then count upstream-only commits; reports ahead only when the
count query exits zero and prints a digit string denoting a positive
number. -/
def git_check_remote_ahead (dryRun : Bool) (env : RepoEnv) : Bool × List Call :=
  let f := runCmd dryRun env.fetch
  let r := runCmd dryRun env.revlist
  (match (if r.1.exit_code = 0 then parseNatDigits r.1.stdout else none) with
    | some n => decide (0 < n)
    | none => false,
   [⟨CallKind.gitFetch, none, f.2⟩, ⟨CallKind.gitRevList, none, r.2⟩])

/-- Source `git_pull` (lines 179-190): a rebase pull, succeeding iff the
tool exits zero. -/
def git_pull (dryRun : Bool) (env : RepoEnv) : Bool × List Call :=
  let r := runCmd dryRun env.pull
  (decide (r.1.exit_code = 0), [⟨CallKind.gitPull, none, r.2⟩])

/-- Classified outcome of one repository sync.  The source function
returns a bare bool; the constructors record which return site of
`git_commit_push` produced it (NoChanges: lines 212 and 227,
ConflictNeedsManualResolution: lines 237 and the rejected-push hint at
249, Failed: lines 219, 229 and 250, CommittedAndPushed: line 253). -/
inductive SyncOutcome
  | NoChanges
  | CommittedAndPushed
  | ConflictNeedsManualResolution
  | Failed (step : CallKind)
deriving DecidableEq

/-- The bool `git_commit_push` actually returns: true exactly for the
no-op and fully-pushed outcomes. -/
def outcomeOk : SyncOutcome → Bool
  | SyncOutcome.NoChanges => true
  | SyncOutcome.CommittedAndPushed => true
  | _ => false

/-- Final push step of `git_commit_push` (lines 239-253): a non-zero push
whose stderr mentions the rejection marker is the manual-resolution
conflict case, any other non-zero push is a push failure. -/
def pushStep (dryRun : Bool) (env : RepoEnv) (pre : List Call) : SyncOutcome × List Call :=
  let r := runCmd dryRun env.push
  let calls := pre ++ [⟨CallKind.gitPush, none, r.2⟩]
  if r.1.exit_code = 0 then
    (SyncOutcome.CommittedAndPushed, calls)
  else if containsSubstr (lowerStr r.1.stderr) "rejected" then
    (SyncOutcome.ConflictNeedsManualResolution, calls)
  else
    (SyncOutcome.Failed CallKind.gitPush, calls)

/-- Source `git_commit_push` (lines 193-253): detect changes, stage,
commit (treating a nothing-to-commit failure as a no-op), optionally
rebase-pull when the remote is ahead, then push. -/
def git_commit_push (dryRun : Bool) (env : RepoEnv) (auto_pull : Bool) : SyncOutcome × List Call :=
  let hc := git_has_changes dryRun env
  if hc.1 = false then
    (SyncOutcome.NoChanges, hc.2)
  else
    let ar := runCmd dryRun env.add
    let addCall : Call := ⟨CallKind.gitAdd, none, ar.2⟩
    if ar.1.exit_code ≠ 0 then
      (SyncOutcome.Failed CallKind.gitAdd, hc.2 ++ [addCall])
    else
      let cr := runCmd dryRun env.commit
      let commitCall : Call := ⟨CallKind.gitCommit, none, cr.2⟩
      let pre := hc.2 ++ [addCall, commitCall]
      if cr.1.exit_code ≠ 0 then
        if containsSubstr cr.1.stderr "nothing to commit" ∨ containsSubstr cr.1.stdout "nothing to commit" then
          (SyncOutcome.NoChanges, pre)
        else
          (SyncOutcome.Failed CallKind.gitCommit, pre)
      else
        if auto_pull then
          let ahead := git_check_remote_ahead dryRun env
          if ahead.1 then
            let pl := git_pull dryRun env
            if pl.1 = false then
              (SyncOutcome.ConflictNeedsManualResolution, pre ++ ahead.2 ++ pl.2)
            else
              pushStep dryRun env (pre ++ ahead.2 ++ pl.2)
          else
            pushStep dryRun env (pre ++ ahead.2)
        else
          pushStep dryRun env pre

/-- Results of the two gh preflight queries (`gh --version`,
`gh auth status`). -/
structure GhEnv where
  version : CommandResult
  auth : CommandResult
deriving DecidableEq

/-- Source `check_gh_installed` (lines 118-130): both preflight queries
must exit zero, else the command aborts (modelled as returning false). -/
def check_gh_installed (dryRun : Bool) (env : GhEnv) : Bool × List Call :=
  let v := runCmd dryRun env.version
  if v.1.exit_code ≠ 0 then
    (false, [⟨CallKind.ghVersion, none, v.2⟩])
  else
    let a := runCmd dryRun env.auth
    (decide (a.1.exit_code = 0), [⟨CallKind.ghVersion, none, v.2⟩, ⟨CallKind.ghAuth, none, a.2⟩])

/-- Filesystem facts and the submodule-init result consulted by
`check_repo_exists`. -/
structure RepoDirs where
  rsExists : Bool
  hbbExists : Bool
  submoduleInit : Int
deriving DecidableEq

/-- Source `check_repo_exists` (lines 133-146): abort when the main
directory is missing; when only the submodule directory is missing, run a
streamed submodule-update and abort if it fails. -/
def check_repo_exists (dryRun : Bool) (env : RepoDirs) : Bool × List Call :=
  if env.rsExists = false then
    (false, [])
  else if env.hbbExists = false then
    let r := runCmdLive dryRun env.submoduleInit
    (decide (r.1 = 0), [⟨CallKind.submoduleUpdate, none, r.2⟩])
  else
    (true, [])

/-- Everything the push command consults: gh preflight, directory facts,
and the git results of the two repositories. -/
structure PushEnv where
  gh : GhEnv
  dirs : RepoDirs
  hbb : RepoEnv
  rs : RepoEnv
deriving DecidableEq

/-- Source `cmd_push` (lines 299-328): preflight, then sync the
hbb_common submodule, then (only if that succeeded) the rs-client
superproject; the first failure aborts with exit 1.  The commit-message
computation is pure presentation and not modelled. -/
def cmd_push (dryRun : Bool) (env : PushEnv) : Int × List Call :=
  let gh := check_gh_installed dryRun env.gh
  if gh.1 = false then
    (1, gh.2)
  else
    let dirs := check_repo_exists dryRun env.dirs
    if dirs.1 = false then
      (1, gh.2 ++ dirs.2)
    else
      let hb := git_commit_push dryRun env.hbb true
      if outcomeOk hb.1 = false then
        (1, gh.2 ++ dirs.2 ++ hb.2.map (tagRepo RepoId.hbb_common))
      else
        let rc := git_commit_push dryRun env.rs true
        if outcomeOk rc.1 = false then
          (1, gh.2 ++ dirs.2 ++ hb.2.map (tagRepo RepoId.hbb_common)
              ++ rc.2.map (tagRepo RepoId.rs_client))
        else
          (0, gh.2 ++ dirs.2 ++ hb.2.map (tagRepo RepoId.hbb_common)
              ++ rc.2.map (tagRepo RepoId.rs_client))

/-- A calendar instant, the part of `datetime.now()` the tag format
reads. -/
structure DateTimeV where
  year : Nat
  month : Nat
  day : Nat
  hour : Nat
  minute : Nat
deriving DecidableEq

/-- Zero-padded two-digit field, as strftime renders %m %d %H %M. -/
def pad2 (n : Nat) : String :=
  if n < 10 then "0" ++ toString n else toString n

/-- Zero-padded four-digit field, as strftime renders %Y. -/
def pad4 (n : Nat) : String :=
  if n < 10 then "000" ++ toString n
  else if n < 100 then "00" ++ toString n
  else if n < 1000 then "0" ++ toString n
  else toString n

/-- Source `get_tag_timestamp` (lines 154-156): the current time rendered
with the strftime pattern `%Y-%m%d-%H%M`, i.e. YYYY-MMDD-HHMM with no
separator between month and day. -/
def get_tag_timestamp (now : DateTimeV) : String :=
  pad4 now.year ++ "-" ++ pad2 now.month ++ pad2 now.day ++ "-"
    ++ pad2 now.hour ++ pad2 now.minute

/-- Modelled from the spec: the BuildTag format the spec documents,
now formatted as `YYYY-MM-DD-HHMM` (a separator between every calendar
field).  This definition follows the words of the spec and exists only to
be compared with `get_tag_timestamp`, which is translated from the
source. -/
def specTagFormat (now : DateTimeV) : String :=
  pad4 now.year ++ "-" ++ pad2 now.month ++ "-" ++ pad2 now.day ++ "-"
    ++ pad2 now.hour ++ pad2 now.minute

/-- One row of the JSON run listing the polling loop requests
(`databaseId,status,createdAt`). -/
structure WorkflowRun where
  databaseId : Nat
  status : String
  createdAt : String
deriving DecidableEq

/-- The check the body of `wait_for_workflow_start` performs on one poll
(source lines 278-287): the listing must exit zero with non-empty output,
decode to a non-empty run list, and its first run must be queued or in
progress; then the stringified id of that run is returned. -/
def pollQualifies (parse : String → Option (List WorkflowRun)) (r : CommandResult) :
    Option String :=
  if r.exit_code = 0 ∧ r.stdout ≠ "" then
    match parse r.stdout with
    | some (run :: _) =>
        if run.status = "queued" ∨ run.status = "in_progress" then
          some (toString run.databaseId)
        else
          none
    | _ => none
  else none

/-- The polling loop of `wait_for_workflow_start` (source lines 268-292),
unrolled on the number of remaining iterations.  `k` is the poll index,
`elapsed` the idealised clock; each fruitless iteration sleeps 2
time-units.  Returns (run id if confirmed, elapsed time at return, poll
calls issued). -/
def waitFrom (dryRun : Bool) (parse : String → Option (List WorkflowRun))
    (polls : Nat → CommandResult) : Nat → Nat → Nat → Option String × Nat × List Call
  | 0, _, elapsed => (none, elapsed, [])
  | fuel + 1, k, elapsed =>
    let rc := runCmd dryRun (polls k)
    let c : Call := ⟨CallKind.pollList, none, rc.2⟩
    match pollQualifies parse rc.1 with
    | some id => (some id, elapsed, [c])
    | none =>
      let rest := waitFrom dryRun parse polls fuel (k + 1) (elapsed + 2)
      (rest.1, rest.2.1, c :: rest.2.2)

/-- Source `wait_for_workflow_start` (lines 256-292): poll every 2
time-units while less than `max_wait` time has elapsed, so
`ceil (max_wait / 2)` polls happen; the source calls it with the default
budget of 30. -/
def wait_for_workflow_start (dryRun : Bool) (parse : String → Option (List WorkflowRun))
    (polls : Nat → CommandResult) (max_wait : Nat) : Option String × Nat × List Call :=
  waitFrom dryRun parse polls ((max_wait + 1) / 2) 0 0

/-- First qualifying poll in the next `fuel` polls starting at index `k`:
the observable result of the polling loop, used to state what the loop
confirms. -/
def firstQualify (parse : String → Option (List WorkflowRun))
    (polls : Nat → CommandResult) : Nat → Nat → Option String
  | 0, _ => none
  | fuel + 1, k =>
    match pollQualifies parse (polls k) with
    | some id => some id
    | none => firstQualify parse polls fuel (k + 1)

/-- Everything the build command consults beyond the push environment:
the trigger result, the run-listing decoder and per-poll results, the
optional explicit tag, and the current time. -/
structure BuildEnv where
  push : PushEnv
  trigger : CommandResult
  parseRuns : String → Option (List WorkflowRun)
  polls : Nat → CommandResult
  tagArg : Option String
  now : DateTimeV

/-- Observable outcome of the build command: exit code, call trace, the
upload-tag input passed to the trigger call if one was made, and the
confirmation-loop result if the loop ran. -/
structure BuildResult where
  exit : Int
  trace : List Call
  uploadTag : Option String
  waited : Option (Option String)

/-- Source `cmd_build` (lines 331-377): preflight, run the push command,
pick the explicit tag or the generated timestamp tag, trigger the
workflow with `upload-tag=<tag>`, and, only when not in dry-run mode,
run the confirmation polling loop with the default budget of 30; the
command returns 0 whether or not a run id was confirmed. -/
def cmd_build (dryRun : Bool) (env : BuildEnv) : BuildResult :=
  let gh := check_gh_installed dryRun env.push.gh
  if gh.1 = false then
    ⟨1, gh.2, none, none⟩
  else
    let dirs := check_repo_exists dryRun env.push.dirs
    if dirs.1 = false then
      ⟨1, gh.2 ++ dirs.2, none, none⟩
    else
      let pu := cmd_push dryRun env.push
      if pu.1 ≠ 0 then
        ⟨pu.1, gh.2 ++ dirs.2 ++ pu.2, none, none⟩
      else
        let tag := env.tagArg.getD (get_tag_timestamp env.now)
        let tr := runCmd dryRun env.trigger
        let t2 := gh.2 ++ dirs.2 ++ pu.2 ++ [⟨CallKind.ghTrigger, none, tr.2⟩]
        if tr.1.exit_code ≠ 0 then
          ⟨1, t2, some tag, none⟩
        else
          if dryRun then
            ⟨0, t2, some tag, none⟩
          else
            let w := wait_for_workflow_start false env.parseRuns env.polls 30
            ⟨0, t2 ++ w.2.2, some tag, some w.1⟩

/-- Everything the watch command consults. -/
structure WatchEnv where
  gh : GhEnv
  list : CommandResult
  watchLive : Int
  follow : Bool

/-- Source `cmd_watch` (lines 380-417): list the five most recent runs;
empty output is reported as no records with exit 0; with the follow flag
a live watch is attached and its code returned. -/
def cmd_watch (dryRun : Bool) (env : WatchEnv) : Int × List Call :=
  let gh := check_gh_installed dryRun env.gh
  if gh.1 = false then
    (1, gh.2)
  else
    let r := runCmd dryRun env.list
    let t1 := gh.2 ++ [⟨CallKind.ghRunListWatch, none, r.2⟩]
    if r.1.exit_code ≠ 0 then
      (1, t1)
    else if r.1.stdout = "" then
      (0, t1)
    else if env.follow then
      let lv := runCmdLive dryRun env.watchLive
      (lv.1, t1 ++ [⟨CallKind.ghRunWatchLive, none, lv.2⟩])
    else
      (0, t1)

/-- One row of the JSON failing-run listing the fail command requests
(`databaseId,displayTitle,conclusion,createdAt`). -/
structure FailedRun where
  databaseId : Nat
  displayTitle : String
  conclusion : String
  createdAt : String
deriving DecidableEq

/-- Everything the fail command consults: gh preflight, the failure
listing, its JSON decoder, and the streamed log-fetch result. -/
structure FailEnv where
  gh : GhEnv
  list : CommandResult
  parseFail : String → Option (List FailedRun)
  logExit : Int

/-- Source `cmd_fail` (lines 420-471): list the most recent failing run
(limit 1); a failed listing or undecodable output exits 1; an empty run
list prints the no-failures message and exits 0 without fetching logs;
otherwise the failed-step logs of the first run are streamed and the
stream code returned. -/
def cmd_fail (dryRun : Bool) (env : FailEnv) : Int × List Call :=
  let gh := check_gh_installed dryRun env.gh
  if gh.1 = false then
    (1, gh.2)
  else
    let r := runCmd dryRun env.list
    let t1 := gh.2 ++ [⟨CallKind.ghRunListFail, none, r.2⟩]
    if r.1.exit_code ≠ 0 then
      (1, t1)
    else
      match env.parseFail r.1.stdout with
      | none => (1, t1)
      | some [] => (0, t1)
      | some (_ :: _) =>
        let lv := runCmdLive dryRun env.logExit
        (lv.1, t1 ++ [⟨CallKind.ghRunViewLog, none, lv.2⟩])

/-! Helper lemmas shared by the claim theorems. -/

theorem runCmd_false (r : CommandResult) : runCmd false r = (r, true) := rfl

theorem runCmd_true (r : CommandResult) : runCmd true r = (dryRunResult, false) := rfl

theorem check_gh_repoNone (d : Bool) (e : GhEnv) :
    ((check_gh_installed d e).2.all fun c => decide (c.repo = none)) = true := by
  simp only [check_gh_installed]
  split <;> simp

theorem check_repo_repoNone (d : Bool) (e : RepoDirs) :
    ((check_repo_exists d e).2.all fun c => decide (c.repo = none)) = true := by
  simp only [check_repo_exists]
  split
  · simp
  · split <;> simp

theorem map_tagRepo_all (r : RepoId) (l : List Call) :
    ((l.map (tagRepo r)).all fun c => decide (c.repo = some r)) = true := by
  induction l with
  | nil => rfl
  | cons hd tl ih => simp [tagRepo, ih]

/-! Claim theorems. -/

/-- C3: for every repository whose working-tree status query returns
empty output, sync returns NoChanges (success) and invokes no staging,
commit, or push calls. -/
theorem claim_C3 (env : RepoEnv) (a : Bool) (h : env.status.stdout = "") :
    (git_commit_push false env a).1 = SyncOutcome.NoChanges
    ∧ ((git_commit_push false env a).2.all fun c =>
        decide (c.kind ≠ CallKind.gitAdd ∧ c.kind ≠ CallKind.gitCommit
          ∧ c.kind ≠ CallKind.gitPush)) = true := by
  simp [git_commit_push, git_has_changes, runCmd, h]

/-- Repository environment with a clean working tree, witnessing C3. -/
def envCleanTree : RepoEnv :=
  ⟨⟨0, "", ""⟩, ⟨0, "", ""⟩, ⟨0, "", ""⟩, ⟨0, "", ""⟩, ⟨0, "0", ""⟩, ⟨0, "", ""⟩, ⟨0, "", ""⟩⟩

/-- Witness for C3 at a concrete clean-tree environment. -/
theorem claim_C3_witness :
    (git_commit_push false envCleanTree true).1 = SyncOutcome.NoChanges
    ∧ ((git_commit_push false envCleanTree true).2.all fun c =>
        decide (c.kind ≠ CallKind.gitAdd ∧ c.kind ≠ CallKind.gitCommit
          ∧ c.kind ≠ CallKind.gitPush)) = true :=
  claim_C3 envCleanTree true rfl

/-- C4: a non-zero commit whose failure text (stderr or stdout) contains
the nothing-to-commit marker yields NoChanges; any other non-zero commit
yields a failed sync. -/
theorem claim_C4 (env : RepoEnv) (a : Bool)
    (h1 : (git_has_changes false env).1 = true)
    (h2 : env.add.exit_code = 0)
    (h3 : env.commit.exit_code ≠ 0) :
    (git_commit_push false env a).1 =
      (if containsSubstr env.commit.stderr "nothing to commit"
          ∨ containsSubstr env.commit.stdout "nothing to commit"
       then SyncOutcome.NoChanges
       else SyncOutcome.Failed CallKind.gitCommit) := by
  simp only [git_commit_push, runCmd, if_neg, h1]
  simp [h1, h2, h3]
  split <;> simp

/-- Repository environment where the commit races to a no-op, witnessing
C4. -/
def envCommitNoop : RepoEnv :=
  ⟨⟨0, "M file", ""⟩, ⟨0, "", ""⟩, ⟨1, "", "nothing to commit, working tree clean"⟩,
   ⟨0, "", ""⟩, ⟨0, "0", ""⟩, ⟨0, "", ""⟩, ⟨0, "", ""⟩⟩

/-- Witness for C4 at a concrete nothing-to-commit environment. -/
theorem claim_C4_witness :
    (git_commit_push false envCommitNoop true).1 = SyncOutcome.NoChanges := by
  have h := claim_C4 envCommitNoop true (by decide) (by decide) (by decide)
  exact h.trans (by decide)

/-- C9: a failing working-tree status query is reported as no changes, so
sync succeeds with NoChanges and issues nothing beyond the status
query. -/
theorem claim_C9 (env : RepoEnv) (a : Bool) (h : env.status.exit_code ≠ 0) :
    (git_has_changes false env).1 = false
    ∧ (git_commit_push false env a).1 = SyncOutcome.NoChanges
    ∧ ((git_commit_push false env a).2.all fun c =>
        decide (c.kind = CallKind.gitStatus)) = true := by
  have hh : (git_has_changes false env).1 = false := by
    simp [git_has_changes, runCmd, h]
  have he : git_commit_push false env a = (SyncOutcome.NoChanges, (git_has_changes false env).2) := by
    simp only [git_commit_push]
    rw [if_pos hh]
  refine ⟨hh, ?_, ?_⟩ <;> simp [he, git_has_changes, runCmd]

/-- Repository environment whose status query itself fails, witnessing
C9. -/
def envStatusFail : RepoEnv :=
  ⟨⟨128, "", "fatal: not a git repository"⟩, ⟨0, "", ""⟩, ⟨0, "", ""⟩,
   ⟨0, "", ""⟩, ⟨0, "0", ""⟩, ⟨0, "", ""⟩, ⟨0, "", ""⟩⟩

/-- Witness for C9 at a concrete failing-status environment. -/
theorem claim_C9_witness :
    (git_has_changes false envStatusFail).1 = false
    ∧ (git_commit_push false envStatusFail true).1 = SyncOutcome.NoChanges
    ∧ ((git_commit_push false envStatusFail true).2.all fun c =>
        decide (c.kind = CallKind.gitStatus)) = true :=
  claim_C9 envStatusFail true (by decide)

/-- C10 (amended): if the rev-list count query exits non-zero or its
output is not a digit string, the remote-ahead check reports not-ahead,
so sync skips the rebase-pull and proceeds directly to push; the exit
status of the fetch itself is ignored by the check. -/
theorem pushStep_trace (d : Bool) (env : RepoEnv) (pre : List Call) :
    (pushStep d env pre).2 = pre ++ [⟨CallKind.gitPush, none, (runCmd d env.push).2⟩] := by
  simp only [pushStep]
  split
  · rfl
  · split <;> rfl

theorem sync_push_of_notAhead (env : RepoEnv)
    (h2 : (git_has_changes false env).1 = true)
    (h3 : env.add.exit_code = 0)
    (h4 : env.commit.exit_code = 0)
    (ha : (git_check_remote_ahead false env).1 = false) :
    git_commit_push false env true =
      pushStep false env
        ((git_has_changes false env).2
          ++ [⟨CallKind.gitAdd, none, true⟩, ⟨CallKind.gitCommit, none, true⟩]
          ++ (git_check_remote_ahead false env).2) := by
  simp only [git_commit_push]
  rw [if_neg (by simp [h2]), if_neg (by simp [runCmd, h3]),
    if_neg (by simp [runCmd, h4]), if_pos trivial, if_neg (by simp [ha])]
  rfl

theorem claim_C10 (env : RepoEnv)
    (h1 : env.revlist.exit_code ≠ 0 ∨ parseNatDigits env.revlist.stdout = none)
    (h2 : (git_has_changes false env).1 = true)
    (h3 : env.add.exit_code = 0)
    (h4 : env.commit.exit_code = 0) :
    (git_check_remote_ahead false env).1 = false
    ∧ ((git_commit_push false env true).2.any fun c =>
        decide (c.kind = CallKind.gitPull)) = false
    ∧ ((git_commit_push false env true).2.any fun c =>
        decide (c.kind = CallKind.gitPush)) = true := by
  have ha : (git_check_remote_ahead false env).1 = false := by
    rcases h1 with h1 | h1
    · simp [git_check_remote_ahead, runCmd, h1]
    · by_cases hz : env.revlist.exit_code = 0 <;>
        simp [git_check_remote_ahead, runCmd, hz, h1]
  have he := sync_push_of_notAhead env h2 h3 h4 ha
  refine ⟨ha, ?_, ?_⟩ <;>
    simp [he, pushStep_trace, git_has_changes, git_check_remote_ahead, runCmd]

/-- Repository environment whose rev-list count query fails, witnessing
the amended C10. -/
def envRevlistFail : RepoEnv :=
  ⟨⟨0, "M file", ""⟩, ⟨0, "", ""⟩, ⟨0, "committed", ""⟩, ⟨0, "", ""⟩,
   ⟨128, "", "fatal: no upstream"⟩, ⟨0, "", ""⟩, ⟨0, "", ""⟩⟩

/-- Witness for the amended C10 at a concrete failing-rev-list
environment. -/
theorem claim_C10_witness :
    (git_check_remote_ahead false envRevlistFail).1 = false
    ∧ ((git_commit_push false envRevlistFail true).2.any fun c =>
        decide (c.kind = CallKind.gitPull)) = false
    ∧ ((git_commit_push false envRevlistFail true).2.any fun c =>
        decide (c.kind = CallKind.gitPush)) = true :=
  claim_C10 envRevlistFail (Or.inl (by decide)) (by decide) (by decide) (by decide)

/-- Repository environment where the fetch fails but the stale rev-list
still reports upstream commits. -/
def envFetchFail : RepoEnv :=
  ⟨⟨0, "M file", ""⟩, ⟨0, "", ""⟩, ⟨0, "committed", ""⟩, ⟨1, "", "network down"⟩,
   ⟨0, "2", ""⟩, ⟨0, "", ""⟩, ⟨0, "", ""⟩⟩

/-- Counterexample to C10 as stated: a non-zero fetch does not make the
check report not-ahead — the fetch result is discarded, and the check
still reports ahead when the (stale) rev-list count is positive. -/
theorem claim_C10_counterexample :
    envFetchFail.fetch.exit_code ≠ 0
    ∧ (git_check_remote_ahead false envFetchFail).1 = true := by
  decide

theorem trace_none_no_rs (l : List Call)
    (h : (l.all fun c => decide (c.repo = none)) = true) :
    (l.any fun c => decide (c.repo = some RepoId.rs_client)) = false := by
  induction l with
  | nil => rfl
  | cons hd tl ih =>
    simp only [List.all_cons, Bool.and_eq_true, decide_eq_true_eq] at h
    simp [h.1, ih h.2]

theorem trace_hbb_no_rs (l : List Call)
    (h : (l.all fun c => decide (c.repo = some RepoId.hbb_common)) = true) :
    (l.any fun c => decide (c.repo = some RepoId.rs_client)) = false := by
  induction l with
  | nil => rfl
  | cons hd tl ih =>
    simp only [List.all_cons, Bool.and_eq_true, decide_eq_true_eq] at h
    simp [h.1, ih h.2]

/-- C1: the push command processes the fixed ordered pair hbb_common,
rs-client in that order — its trace decomposes into untagged preflight
calls, then hbb_common calls, then rs-client calls — and when the
hbb_common sync fails (any not-ok outcome, push rejection included) the
command exits 1 and no rs-client call is ever issued. -/
theorem claim_C1 (dryRun : Bool) (env : PushEnv) :
    (∃ t0 t1 t2, (cmd_push dryRun env).2 = t0 ++ t1 ++ t2
        ∧ (t0.all fun c => decide (c.repo = none)) = true
        ∧ (t1.all fun c => decide (c.repo = some RepoId.hbb_common)) = true
        ∧ (t2.all fun c => decide (c.repo = some RepoId.rs_client)) = true)
    ∧ (outcomeOk (git_commit_push dryRun env.hbb true).1 = false →
        (cmd_push dryRun env).1 = 1
        ∧ ((cmd_push dryRun env).2.any fun c =>
            decide (c.repo = some RepoId.rs_client)) = false) := by
  cases hg : (check_gh_installed dryRun env.gh).1 with
  | false =>
    have heq : cmd_push dryRun env = (1, (check_gh_installed dryRun env.gh).2) := by
      simp only [cmd_push]
      rw [if_pos hg]
    refine ⟨⟨(check_gh_installed dryRun env.gh).2, [], [], by simp [heq],
      check_gh_repoNone dryRun env.gh, rfl, rfl⟩, fun _ => ⟨by simp [heq], ?_⟩⟩
    rw [heq]
    exact trace_none_no_rs _ (check_gh_repoNone dryRun env.gh)
  | true =>
    cases hd : (check_repo_exists dryRun env.dirs).1 with
    | false =>
      have heq : cmd_push dryRun env =
          (1, (check_gh_installed dryRun env.gh).2 ++ (check_repo_exists dryRun env.dirs).2) := by
        simp only [cmd_push]
        rw [if_neg (by simp [hg]), if_pos hd]
      have hall : (((check_gh_installed dryRun env.gh).2 ++ (check_repo_exists dryRun env.dirs).2).all
          fun c => decide (c.repo = none)) = true := by
        rw [List.all_append]
        simp [check_gh_repoNone dryRun env.gh, check_repo_repoNone dryRun env.dirs]
      refine ⟨⟨_, [], [], by simp [heq], hall, rfl, rfl⟩, fun _ => ⟨by simp [heq], ?_⟩⟩
      rw [heq]
      exact trace_none_no_rs _ hall
    | true =>
      have hall : (((check_gh_installed dryRun env.gh).2 ++ (check_repo_exists dryRun env.dirs).2).all
          fun c => decide (c.repo = none)) = true := by
        rw [List.all_append]
        simp [check_gh_repoNone dryRun env.gh, check_repo_repoNone dryRun env.dirs]
      cases hh : outcomeOk (git_commit_push dryRun env.hbb true).1 with
      | false =>
        have heq : cmd_push dryRun env =
            (1, (check_gh_installed dryRun env.gh).2 ++ (check_repo_exists dryRun env.dirs).2
              ++ ((git_commit_push dryRun env.hbb true).2.map (tagRepo RepoId.hbb_common))) := by
          simp only [cmd_push]
          rw [if_neg (by simp [hg]), if_neg (by simp [hd]), if_pos hh]
        refine ⟨⟨(check_gh_installed dryRun env.gh).2 ++ (check_repo_exists dryRun env.dirs).2,
          (git_commit_push dryRun env.hbb true).2.map (tagRepo RepoId.hbb_common), [],
          by simp [heq], hall, map_tagRepo_all _ _, rfl⟩,
          fun _ => ⟨by simp [heq], ?_⟩⟩
        have hx := trace_none_no_rs _ hall
        have hy := trace_hbb_no_rs
          ((git_commit_push dryRun env.hbb true).2.map (tagRepo RepoId.hbb_common))
          (map_tagRepo_all RepoId.hbb_common (git_commit_push dryRun env.hbb true).2)
        rw [heq]
        show (((check_gh_installed dryRun env.gh).2 ++ (check_repo_exists dryRun env.dirs).2
            ++ (git_commit_push dryRun env.hbb true).2.map (tagRepo RepoId.hbb_common)).any
            fun c => decide (c.repo = some RepoId.rs_client)) = false
        rw [List.any_append, hx, hy]
        rfl
      | true =>
        have heq : cmd_push dryRun env =
            (if outcomeOk (git_commit_push dryRun env.rs true).1 = false then 1 else 0,
              (check_gh_installed dryRun env.gh).2 ++ (check_repo_exists dryRun env.dirs).2
                ++ ((git_commit_push dryRun env.hbb true).2.map (tagRepo RepoId.hbb_common))
                ++ ((git_commit_push dryRun env.rs true).2.map (tagRepo RepoId.rs_client))) := by
          simp only [cmd_push]
          rw [if_neg (by simp [hg]), if_neg (by simp [hd]), if_neg (by simp [hh])]
          split <;> simp_all
        refine ⟨⟨(check_gh_installed dryRun env.gh).2 ++ (check_repo_exists dryRun env.dirs).2,
          (git_commit_push dryRun env.hbb true).2.map (tagRepo RepoId.hbb_common),
          (git_commit_push dryRun env.rs true).2.map (tagRepo RepoId.rs_client),
          by simp [heq], hall, map_tagRepo_all _ _, map_tagRepo_all _ _⟩,
          fun h => absurd h (by simp [hh])⟩

/-- Repository environment whose push is rejected by the remote. -/
def envHbbRejected : RepoEnv :=
  ⟨⟨0, "M src/lib.rs", ""⟩, ⟨0, "", ""⟩, ⟨0, "1 file changed", ""⟩, ⟨0, "", ""⟩,
   ⟨0, "0", ""⟩, ⟨0, "", ""⟩,
   ⟨1, "", "error: failed to push some refs, updates were rejected"⟩⟩

/-- Push environment where the hbb_common sync fails with a push
rejection while rs-client is clean. -/
def envPushAborts : PushEnv :=
  ⟨⟨⟨0, "gh version 2.40", ""⟩, ⟨0, "logged in", ""⟩⟩, ⟨true, true, 0⟩,
   envHbbRejected, envCleanTree⟩

/-- Witness for C1: with the hbb_common push rejected, the push command
exits 1 and issues no rs-client call. -/
theorem claim_C1_witness :
    (cmd_push false envPushAborts).1 = 1
    ∧ ((cmd_push false envPushAborts).2.any fun c =>
        decide (c.repo = some RepoId.rs_client)) = false :=
  (claim_C1 false envPushAborts).2 (by decide)

/-- C2: with the simulate-only flag set, the process runner executes
nothing and reports the synthetic success result; no call recorded by
any command (push, build, watch, fail) is executed; and the build
command skips the confirmation polling loop entirely (no poll call, no
wait result). -/
theorem claim_C2 :
    (∀ r, runCmd true r = (dryRunResult, false))
    ∧ (∀ n : Int, runCmdLive true n = (0, false))
    ∧ (∀ env : PushEnv, ((cmd_push true env).2.all fun c => decide (c.executed = false)) = true)
    ∧ (∀ env : BuildEnv,
        ((cmd_build true env).trace.all fun c => decide (c.executed = false)) = true
        ∧ (cmd_build true env).waited = none
        ∧ ((cmd_build true env).trace.all fun c => decide (c.kind ≠ CallKind.pollList)) = true)
    ∧ (∀ env : WatchEnv, ((cmd_watch true env).2.all fun c => decide (c.executed = false)) = true)
    ∧ (∀ env : FailEnv, ((cmd_fail true env).2.all fun c => decide (c.executed = false)) = true) := by
  refine ⟨fun r => rfl, fun n => rfl, ?_, ?_, ?_, ?_⟩
  · rintro ⟨gh, ⟨rs, hbb, s⟩, eh, er⟩
    cases rs <;> cases hbb <;> rfl
  · rintro ⟨⟨gh, ⟨rs, hbb, s⟩, eh, er⟩, trig, parse, polls, tagArg, now⟩
    cases rs <;> cases hbb <;> exact ⟨rfl, rfl, rfl⟩
  · rintro ⟨gh, l, wl, follow⟩
    cases follow <;> rfl
  · rintro ⟨gh, l, pf, lg⟩
    have he : cmd_fail true ⟨gh, l, pf, lg⟩ =
        (match pf "[dry-run]" with
          | none => (1, [⟨CallKind.ghVersion, none, false⟩, ⟨CallKind.ghAuth, none, false⟩,
              ⟨CallKind.ghRunListFail, none, false⟩])
          | some [] => (0, [⟨CallKind.ghVersion, none, false⟩, ⟨CallKind.ghAuth, none, false⟩,
              ⟨CallKind.ghRunListFail, none, false⟩])
          | some (_ :: _) => (0, [⟨CallKind.ghVersion, none, false⟩, ⟨CallKind.ghAuth, none, false⟩,
              ⟨CallKind.ghRunListFail, none, false⟩, ⟨CallKind.ghRunViewLog, none, false⟩])) := rfl
    rcases hp : pf "[dry-run]" with _ | (_ | ⟨r, rest⟩) <;> rw [he, hp] <;> rfl

theorem waitFrom_none (parse : String → Option (List WorkflowRun))
    (polls : Nat → CommandResult)
    (hq : ∀ k, pollQualifies parse (polls k) = none) :
    ∀ fuel k e, (waitFrom false parse polls fuel k e).1 = none := by
  intro fuel
  induction fuel with
  | zero => intro k e; rfl
  | succ n ih =>
    intro k e
    simp only [waitFrom, runCmd_false]
    rw [hq k]
    exact ih (k + 1) (e + 2)

theorem waitFrom_elapsed (parse : String → Option (List WorkflowRun))
    (polls : Nat → CommandResult) :
    ∀ fuel k e, (waitFrom false parse polls fuel k e).2.1 ≤ e + 2 * fuel := by
  intro fuel
  induction fuel with
  | zero => intro k e; simp [waitFrom]
  | succ n ih =>
    intro k e
    simp only [waitFrom, runCmd_false]
    cases hpk : pollQualifies parse (polls k) with
    | none =>
      have := ih (k + 1) (e + 2)
      simp only [hpk]
      omega
    | some id =>
      simp only [hpk]
      omega

/-- C5: the confirmation polling loop always finishes within the wait
budget (default 30, caller-overridable) plus one 2-unit poll interval;
when no poll ever qualifies it reports no run id; and the build command
still exits 0 in that case. -/
theorem claim_C5 (env : BuildEnv) (max_wait : Nat)
    (hq : ∀ k, pollQualifies env.parseRuns (env.polls k) = none)
    (hpush : (cmd_push false env.push).1 = 0)
    (htrig : env.trigger.exit_code = 0) :
    (wait_for_workflow_start false env.parseRuns env.polls max_wait).2.1 ≤ max_wait + 2
    ∧ (wait_for_workflow_start false env.parseRuns env.polls max_wait).1 = none
    ∧ (cmd_build false env).exit = 0
    ∧ (cmd_build false env).waited = some none := by
  have hnone := waitFrom_none env.parseRuns env.polls hq
  have hel := waitFrom_elapsed env.parseRuns env.polls ((max_wait + 1) / 2) 0 0
  refine ⟨by unfold wait_for_workflow_start; omega, hnone _ 0 0, ?_⟩
  cases hg : (check_gh_installed false env.push.gh).1 with
  | false =>
    exfalso
    have h1 : cmd_push false env.push = (1, (check_gh_installed false env.push.gh).2) := by
      simp only [cmd_push]
      rw [if_pos hg]
    rw [h1] at hpush
    simp at hpush
  | true =>
    cases hd : (check_repo_exists false env.push.dirs).1 with
    | false =>
      exfalso
      have h1 : cmd_push false env.push =
          (1, (check_gh_installed false env.push.gh).2 ++ (check_repo_exists false env.push.dirs).2) := by
        simp only [cmd_push]
        rw [if_neg (by simp [hg]), if_pos hd]
      rw [h1] at hpush
      simp at hpush
    | true =>
      have heq : cmd_build false env = ⟨0,
          (check_gh_installed false env.push.gh).2 ++ (check_repo_exists false env.push.dirs).2
            ++ (cmd_push false env.push).2 ++ [⟨CallKind.ghTrigger, none, true⟩]
            ++ (wait_for_workflow_start false env.parseRuns env.polls 30).2.2,
          some (env.tagArg.getD (get_tag_timestamp env.now)),
          some (wait_for_workflow_start false env.parseRuns env.polls 30).1⟩ := by
        simp only [cmd_build]
        rw [if_neg (by simp [hg]), if_neg (by simp [hd]), if_neg (by simp [hpush]),
          if_neg (by simp [runCmd, htrig]), if_neg (by simp)]
        rfl
      rw [heq]
      exact ⟨rfl, congrArg some (hnone _ 0 0)⟩

/-- Repository environment with staged changes whose whole sync
succeeds. -/
def envDirtyOk : RepoEnv :=
  ⟨⟨0, "M src/main.rs", ""⟩, ⟨0, "", ""⟩, ⟨0, "1 file changed", ""⟩, ⟨0, "", ""⟩,
   ⟨0, "0", ""⟩, ⟨0, "", ""⟩, ⟨0, "", ""⟩⟩

/-- Push environment where both repository syncs succeed. -/
def pushEnvAllOk : PushEnv :=
  ⟨⟨⟨0, "gh version 2.40", ""⟩, ⟨0, "logged in", ""⟩⟩, ⟨true, true, 0⟩,
   envDirtyOk, envDirtyOk⟩

/-- Build environment whose run-listing endpoint always fails, so no poll
ever qualifies. -/
def buildEnvQuiet : BuildEnv :=
  ⟨pushEnvAllOk, ⟨0, "", ""⟩, fun _ => none, fun _ => ⟨1, "", "api error"⟩, none,
   ⟨2026, 10, 12, 15, 30⟩⟩

/-- Witness for C5 at a concrete build environment where every poll
fails. -/
theorem claim_C5_witness :
    (wait_for_workflow_start false buildEnvQuiet.parseRuns buildEnvQuiet.polls 30).2.1 ≤ 30 + 2
    ∧ (wait_for_workflow_start false buildEnvQuiet.parseRuns buildEnvQuiet.polls 30).1 = none
    ∧ (cmd_build false buildEnvQuiet).exit = 0
    ∧ (cmd_build false buildEnvQuiet).waited = some none :=
  claim_C5 buildEnvQuiet 30 (fun _ => rfl) (by decide) rfl

/-- The single workflow run of the C6 scenario: id 100, already running
before the trigger. -/
def run100 : WorkflowRun := ⟨100, "in_progress", "2026-10-12T00:00:00Z"⟩

/-- Time-invariant run-listing output of the C6 scenario. -/
def steadyCR : CommandResult := ⟨0, "steady-listing", ""⟩

/-- JSON decoder of the C6 scenario: the listing always decodes to the
single pre-existing run 100. -/
def steadyParse : String → Option (List WorkflowRun) :=
  fun s => if s = "steady-listing" then some [run100] else none

/-- Counterexample to C6 as stated: the run listing is time-invariant, so
the run it shows before the trigger is the very run the loop confirms —
run 100 was already in progress (hence not newly queued by the trigger),
yet the confirmation loop returns its id.  The loop never compares
against the pre-trigger listing. -/
theorem claim_C6_counterexample :
    (wait_for_workflow_start false steadyParse (fun _ => steadyCR) 30).1
        = some (toString run100.databaseId)
    ∧ run100.status = "in_progress"
    ∧ steadyParse steadyCR.stdout = some [run100] := by
  decide

/-- C6 (amended): the confirmation loop returns exactly the result of
the first qualifying poll — a successful, non-empty, decodable listing
whose first run is queued or in progress — with no check that the run
was absent before the trigger. -/
theorem claim_C6 (parse : String → Option (List WorkflowRun))
    (polls : Nat → CommandResult) (max_wait : Nat) :
    (wait_for_workflow_start false parse polls max_wait).1
      = firstQualify parse polls ((max_wait + 1) / 2) 0 := by
  unfold wait_for_workflow_start
  have main : ∀ m k e, (waitFrom false parse polls m k e).1 = firstQualify parse polls m k := by
    intro m
    induction m with
    | zero => intro k e; rfl
    | succ j ihj =>
      intro k e
      simp only [waitFrom, firstQualify, runCmd_false]
      cases hpk : pollQualifies parse (polls k) with
      | none =>
        simp only [hpk]
        exact ihj (k + 1) (e + 2)
      | some id => simp only [hpk]
  exact main ((max_wait + 1) / 2) 0 0

/-- Counterexample to C7 as stated: at 2026-10-12 15:30 the generated tag
is "2026-1012-1530" (strftime pattern %Y-%m%d-%H%M), not the
"2026-10-12-1530" the spec format YYYY-MM-DD-HHMM would give. -/
theorem claim_C7_counterexample :
    get_tag_timestamp ⟨2026, 10, 12, 15, 30⟩ = "2026-1012-1530"
    ∧ specTagFormat ⟨2026, 10, 12, 15, 30⟩ = "2026-10-12-1530"
    ∧ get_tag_timestamp ⟨2026, 10, 12, 15, 30⟩ ≠ specTagFormat ⟨2026, 10, 12, 15, 30⟩ := by
  decide

/-- C7 (amended): when no tag is supplied, the build command passes the
generated timestamp tag opaquely as the upload-tag trigger input, and
that tag is the current time rendered as YYYY-MMDD-HHMM (no separator
between month and day). -/
theorem claim_C7 (env : BuildEnv)
    (htag : env.tagArg = none)
    (hpush : (cmd_push false env.push).1 = 0) :
    (cmd_build false env).uploadTag = some (get_tag_timestamp env.now)
    ∧ get_tag_timestamp env.now =
        pad4 env.now.year ++ "-" ++ pad2 env.now.month ++ pad2 env.now.day ++ "-"
          ++ pad2 env.now.hour ++ pad2 env.now.minute := by
  refine ⟨?_, rfl⟩
  cases hg : (check_gh_installed false env.push.gh).1 with
  | false =>
    exfalso
    have h1 : cmd_push false env.push = (1, (check_gh_installed false env.push.gh).2) := by
      simp only [cmd_push]
      rw [if_pos hg]
    rw [h1] at hpush
    simp at hpush
  | true =>
    cases hd : (check_repo_exists false env.push.dirs).1 with
    | false =>
      exfalso
      have h1 : cmd_push false env.push =
          (1, (check_gh_installed false env.push.gh).2 ++ (check_repo_exists false env.push.dirs).2) := by
        simp only [cmd_push]
        rw [if_neg (by simp [hg]), if_pos hd]
      rw [h1] at hpush
      simp at hpush
    | true =>
      simp only [cmd_build]
      rw [if_neg (by simp [hg]), if_neg (by simp [hd]), if_neg (by simp [hpush])]
      split
      · simp [htag]
      · split
        · simp [htag]
        · simp [htag]

/-- Witness for the amended C7 at a concrete build environment with no
explicit tag. -/
theorem claim_C7_witness :
    (cmd_build false buildEnvQuiet).uploadTag = some (get_tag_timestamp buildEnvQuiet.now)
    ∧ get_tag_timestamp buildEnvQuiet.now =
        pad4 buildEnvQuiet.now.year ++ "-" ++ pad2 buildEnvQuiet.now.month
          ++ pad2 buildEnvQuiet.now.day ++ "-" ++ pad2 buildEnvQuiet.now.hour
          ++ pad2 buildEnvQuiet.now.minute :=
  claim_C7 buildEnvQuiet rfl (by decide)

/-- C8: when the failing-run listing succeeds and decodes to an empty
run list, the fail command exits 0 and never fetches logs. -/
theorem claim_C8 (env : FailEnv)
    (hv : env.gh.version.exit_code = 0)
    (ha : env.gh.auth.exit_code = 0)
    (hl : env.list.exit_code = 0)
    (hp : env.parseFail env.list.stdout = some []) :
    (cmd_fail false env).1 = 0
    ∧ ((cmd_fail false env).2.all fun c =>
        decide (c.kind ≠ CallKind.ghRunViewLog)) = true := by
  have hgh : (check_gh_installed false env.gh).1 = true := by
    simp [check_gh_installed, runCmd, hv, ha]
  have htr : (check_gh_installed false env.gh).2
      = [⟨CallKind.ghVersion, none, true⟩, ⟨CallKind.ghAuth, none, true⟩] := by
    simp [check_gh_installed, runCmd, hv]
  have he : cmd_fail false env =
      (0, (check_gh_installed false env.gh).2 ++ [⟨CallKind.ghRunListFail, none, true⟩]) := by
    simp only [cmd_fail, runCmd_false]
    rw [if_neg (by simp [hgh]), if_neg (by simp [hl]), hp]
  rw [he]
  exact ⟨rfl, by simp [htr]⟩

/-- Fail environment whose listing reports no failing run. -/
def failEnvNoFailures : FailEnv :=
  ⟨⟨⟨0, "gh version 2.40", ""⟩, ⟨0, "logged in", ""⟩⟩, ⟨0, "empty-listing", ""⟩,
   fun s => if s = "empty-listing" then some [] else none, 0⟩

/-- Witness for C8 at a concrete no-failures environment. -/
theorem claim_C8_witness :
    (cmd_fail false failEnvNoFailures).1 = 0
    ∧ ((cmd_fail false failEnvNoFailures).2.all fun c =>
        decide (c.kind ≠ CallKind.ghRunViewLog)) = true :=
  claim_C8 failEnvNoFailures rfl rfl rfl rfl
